import Mathlib

/-!
Verification of the dependency-checker glue tool (`main.py`).

The development shallowly embeds the pure core of the program:
the structured (deptry) report parser, the line-oriented
(pip-check-reqs) output parser, the requirements-file runner's
command construction and exit-code handling, the final decision
policy, and the fail-on-warn flag parsing.  External effects
(subprocess execution, the filesystem, `json.loads`) are passed in
as explicit parameters; Python exceptions and `sys.exit` become
explicit result constructors.
-/

namespace DepCheck

/-! ## Python string primitives -/

/-- Characters stripped by Python's `str.strip()` (ASCII whitespace). -/
def isPySpace (c : Char) : Bool :=
  c = ' ' || c = '\t' || c = '\n' || c = '\r' || c = '\x0b' || c = '\x0c'

/-- Strip characters satisfying `p` from both ends, like Python `str.strip`. -/
def stripChars (p : Char → Bool) (l : List Char) : List Char :=
  ((l.dropWhile p).reverse.dropWhile p).reverse

/-- Python `str.strip()` on a whole string. -/
def pyStrip (s : String) : String := String.mk (stripChars isPySpace s.toList)

/-- Python `str.lower()` (ASCII case folding, which covers every input the tool checks). -/
def pyLower (l : List Char) : List Char := l.map Char.toLower

/-- Python `str.lower()` on a whole string. -/
def pyLowerS (s : String) : String := String.mk (pyLower s.toList)

/-- Line-boundary characters recognised by Python's `str.splitlines`. -/
def isLineBoundaryChar (c : Char) : Bool :=
  c = '\n' || c = '\r' || c = '\x0b' || c = '\x0c' ||
    c = '\x1c' || c = '\x1d' || c = '\x1e' || c = '\x85' ||
    c = '\u2028' || c = '\u2029'

/-- Worker for `pySplitlines`; `acc` holds the current line reversed, and
`afterCr` records that the previous character was a carriage return, so that
a following line feed is consumed silently (the `\r\n` pair is one
boundary). -/
def splitlinesAux : List Char → List Char → Bool → List (List Char)
  | [], acc, _ => if acc.isEmpty then [] else [acc.reverse]
  | c :: rest, acc, afterCr =>
    if afterCr && c = '\n' then splitlinesAux rest [] false
    else if isLineBoundaryChar c then
      acc.reverse :: splitlinesAux rest [] (c = '\r')
    else splitlinesAux rest (c :: acc) false

/-- Python `str.splitlines()`. -/
def pySplitlines (s : String) : List (List Char) :=
  splitlinesAux s.toList [] false

/-- Python `x or y` on strings read from the environment: `None` and the empty
string are falsy and fall through to the right operand. -/
def pyOrStr (o : Option String) (d : String) : String :=
  match o with
  | some s => if s = "" then d else s
  | none => d

/-- Lexicographic order on code points, as Python compares strings. -/
def charListLe : List Char → List Char → Bool
  | [], _ => true
  | _ :: _, [] => false
  | a :: as, b :: bs => if a = b then charListLe as bs else decide (a < b)

/-- String comparison used to model Python `sorted`. -/
def strLe (a b : String) : Bool := charListLe a.toList b.toList

/-- Insert into a sorted list (model of Python `sorted`). -/
def insertSorted (x : String) : List String → List String
  | [] => [x]
  | y :: ys => if strLe x y then x :: y :: ys else y :: insertSorted x ys

/-- Insertion sort (model of Python `sorted` on strings). -/
def insertionSort : List String → List String
  | [] => []
  | x :: xs => insertSorted x (insertionSort xs)

/-- Python `sorted(set(xs))`: the distinct elements in ascending order. -/
def sortedDedup (xs : List String) : List String := insertionSort xs.dedup

/-! ## JSON values and Python dynamic semantics

`JVal` is the image of `json.loads`: null, booleans, numbers
(integers suffice for this tool), strings, arrays and objects.
`PyExc` records the uncaught Python exceptions the parser can raise
on unusual shapes of data. -/

inductive JVal where
  | jnull
  | jbool (b : Bool)
  | jint (n : Int)
  | jstr (s : String)
  | jarr (xs : List JVal)
  | jobj (kvs : List (String × JVal))

/-- Uncaught Python exceptions reachable in `parse_deptry_report`. -/
inductive PyExc where
  | attributeError
  | typeError
deriving DecidableEq

/-- Python truthiness of a parsed JSON value. -/
def truthy : JVal → Bool
  | .jnull => false
  | .jbool b => b
  | .jint n => decide (n ≠ 0)
  | .jstr s => decide (s ≠ "")
  | .jarr xs => !xs.isEmpty
  | .jobj kvs => !kvs.isEmpty

/-- Python `dict.get(k)`: `None` when the key is absent. -/
def pyDictGet (kvs : List (String × JVal)) (k : String) : Option JVal :=
  kvs.lookup k

/-- Python `dict.get(k, d)`. -/
def pyGetDefault (kvs : List (String × JVal)) (k : String) (d : JVal) : JVal :=
  (pyDictGet kvs k).getD d

/-- Python iteration `for item in v`: lists yield elements, strings yield
one-character strings, dicts yield their keys, everything else raises
`TypeError`. -/
def pyIterate : JVal → Except PyExc (List JVal)
  | .jarr xs => .ok xs
  | .jstr s => .ok (s.toList.map fun c => .jstr (String.mk [c]))
  | .jobj kvs => .ok (kvs.map fun kv => .jstr kv.1)
  | _ => .error .typeError

mutual

/-- Python `str(v)` for a value produced by `json.loads`. -/
def pyRepr : JVal → String
  | .jnull => "None"
  | .jbool true => "True"
  | .jbool false => "False"
  | .jint n => toString n
  | .jstr s => "'" ++ s ++ "'"
  | .jarr xs => "[" ++ pyReprSeq xs ++ "]"
  | .jobj kvs => "\x7b" ++ pyReprKVs kvs ++ "\x7d"

/-- Comma-separated reprs of the elements of a list. -/
def pyReprSeq : List JVal → String
  | [] => ""
  | [x] => pyRepr x
  | x :: y :: rest => pyRepr x ++ ", " ++ pyReprSeq (y :: rest)

/-- Comma-separated reprs of the entries of a dict. -/
def pyReprKVs : List (String × JVal) → String
  | [] => ""
  | [(k, v)] => "'" ++ k ++ "': " ++ pyRepr v
  | (k, v) :: kv :: rest => "'" ++ k ++ "': " ++ pyRepr v ++ ", " ++ pyReprKVs (kv :: rest)

end

/-- Python `a or b` where `a` is an `Option JVal` from `dict.get`:
keep `a`'s value when truthy, otherwise evaluate the fallback. -/
def pyOrJ (o : Option JVal) (k : Unit → JVal) : JVal :=
  match o with
  | some v => if truthy v then v else k ()
  | none => k ()

/-- One entry of the deptry report:
`item.get("module") or item.get("name") or str(item)`.
A non-dict entry has no `get` method, so Python raises `AttributeError`. -/
def entryName : JVal → Except PyExc JVal
  | .jobj kvs =>
      .ok (pyOrJ (pyDictGet kvs "module") fun _ =>
           pyOrJ (pyDictGet kvs "name") fun _ =>
           .jstr (pyRepr (.jobj kvs)))
  | _ => .error .attributeError

/-- The list comprehension over the report entries, left to right,
stopping at the first exception. -/
def mapEntries : List JVal → Except PyExc (List JVal)
  | [] => .ok []
  | x :: xs => do
    let v ← entryName x
    let vs ← mapEntries xs
    .ok (v :: vs)

/-- The body of `parse_deptry_report` after a successful `json.loads`:
read `missing` and `unused` (defaulting to empty lists) and name each entry. -/
def parseDeptryJson (data : JVal) : Except PyExc (List JVal × List JVal) :=
  match data with
  | .jobj kvs => do
    let missRaw ← pyIterate (pyGetDefault kvs "missing" (.jarr []))
    let missing ← mapEntries missRaw
    let unuRaw ← pyIterate (pyGetDefault kvs "unused" (.jarr []))
    let unused ← mapEntries unuRaw
    .ok (missing, unused)
  | _ => .error .attributeError

/-- Result of `parse_deptry_report`: a normal `(missing, unused)` pair,
the `sys.exit(2)` taken on a JSON decode error (carrying the raw text the
function printed), or an uncaught Python exception. -/
inductive DeptryResult where
  | parsed (missing unused : List JVal)
  | fatal (exitCode : Int) (reportedRaw : String)
  | uncaught (e : PyExc)

/-- `parse_deptry_report(stdout)`, with `json.loads` passed in as an explicit
decoding function (`none` models `json.JSONDecodeError`). -/
def parse_deptry_report (jsonLoads : String → Option JVal) (stdout : String) :
    DeptryResult :=
  if pyStrip stdout = "" then .parsed [] []
  else
    match jsonLoads stdout with
    | none => .fatal 2 stdout
    | some data =>
      match parseDeptryJson data with
      | .ok (m, u) => .parsed m u
      | .error e => .uncaught e

/-! ## Line-oriented parser (`parse_pip_check_output`) -/

/-- The character set the parser accepts in a package name. -/
def isAllowedChar (c : Char) : Bool :=
  ('a' ≤ c && c ≤ 'z') || ('A' ≤ c && c ≤ 'Z') || ('0' ≤ c && c ≤ '9') ||
    c = '-' || c = '_' || c = '.'

/-- First group of lowercased header prefixes skipped by the parser. -/
def headerSkipsA : List String :=
  ["examining ", "missing requirements", "unused requirements",
   "extra requirements"]

/-- Second group of lowercased header prefixes skipped by the parser. -/
def headerSkipsB : List String :=
  ["configuration", "results", "to fix", "hint:", "warning"]

/-- Comment and separator markers skipped by the parser. -/
def markerSkips : List String := ["#", "=", "---"]

/-- `startswith` on a character list. -/
def startsWithStr (l : List Char) (p : String) : Bool := p.toList.isPrefixOf l

/-- The per-line body of `parse_pip_check_output`:
`some candidate` when the line contributes a package name, else `none`. -/
def processLine (line : List Char) : Option (List Char) :=
  let clean := stripChars isPySpace line
  if clean.isEmpty then none
  else
    let lowered := pyLower clean
    if headerSkipsA.any (fun p => startsWithStr lowered p) then none
    else if headerSkipsB.any (fun p => startsWithStr lowered p) then none
    else if markerSkips.any (fun p => startsWithStr clean p) then none
    else if (clean.headD ' ').isDigit && clean.contains ':' then none
    else
      let debulleted :=
        if startsWithStr clean "- " || startsWithStr clean "* " then clean.drop 2
        else clean
      let candidate :=
        stripChars (fun c => c = ',')
          ((debulleted.dropWhile isPySpace).takeWhile (fun c => !isPySpace c))
      if candidate.isEmpty then none
      else if candidate.all isAllowedChar then some candidate
      else none

/-- `parse_pip_check_output(stdout)`: process each line, collect the accepted
tokens in order, then `sorted(set(...))`. -/
def parse_pip_check_output (stdout : String) : List String :=
  sortedDedup (((pySplitlines stdout).filterMap processLine).map fun cs =>
    String.mk cs)

/-! ## Requirements-file runner (`run_pip_check_reqs`) -/

/-- The fields of `subprocess.CompletedProcess` the program reads. -/
structure CompletedProcess where
  returncode : Int
  stdout : String
  stderr : String

/-- The fixed, ordered candidate list of `select_requirements_file`. -/
def requirementsCandidates (path : String) : List String :=
  [path ++ "/requirements.txt", path ++ "/requirements-dev.txt",
   path ++ "/requirements.in"]

/-- `select_requirements_file(path)`, with filesystem existence passed in. -/
def select_requirements_file (fsExists : String → Bool) (path : String) :
    Option String :=
  (requirementsCandidates path).find? fsExists

/-- The two command lines built by `run_pip_check_reqs`:
base commands extended with `--requirements-file` when a manifest was found. -/
def pipCheckCommands (fsExists : String → Bool) (path : String) :
    List String × List String :=
  let commandSuffix : List String :=
    match select_requirements_file fsExists path with
    | some r => ["--requirements-file", r]
    | none => []
  (["pip-missing-reqs", path] ++ commandSuffix,
   ["pip-extra-reqs", path] ++ commandSuffix)

/-- Outcome of `run_pip_check_reqs`: either `sys.exit` with a code, or the
`(missing, unused, diagnostics)` triple it returns. -/
inductive PipCheckOutcome where
  | fatal (exitCode : Int) (diagnostics : List (String × String))
  | completed (missing unused : List String)
      (diagnostics : List (String × String))

/-- The diagnostics dict: each tool's stderr, kept only when non-empty. -/
def pipDiagnostics (missingResult extraResult : CompletedProcess) :
    List (String × String) :=
  (if missingResult.stderr ≠ "" then [("pip-missing-reqs", missingResult.stderr)]
   else []) ++
  (if extraResult.stderr ≠ "" then [("pip-extra-reqs", extraResult.stderr)]
   else [])

/-- Python `a or b` on integers: keep `a` unless it is zero. -/
def pyOrInt (a b : Int) : Int := if a ≠ 0 then a else b

/-- `run_pip_check_reqs`, as a function of the two completed sub-invocations
(the subprocess calls themselves are external). -/
def run_pip_check_reqs (missingResult extraResult : CompletedProcess) :
    PipCheckOutcome :=
  let diagnostics := pipDiagnostics missingResult extraResult
  if ¬(missingResult.returncode = 0 ∨ missingResult.returncode = 1) ∨
     ¬(extraResult.returncode = 0 ∨ extraResult.returncode = 1) then
    .fatal (pyOrInt missingResult.returncode (pyOrInt extraResult.returncode 2))
      diagnostics
  else
    .completed (parse_pip_check_output missingResult.stdout)
      (parse_pip_check_output extraResult.stdout) diagnostics

/-! ## Decision policy and fail-on-warn flag -/

/-- Exit code and warning status computed at the end of `main`. -/
structure RunOutcome where
  exitCode : Nat
  warnedUnused : Bool
deriving DecidableEq

/-- The tail of `main`: `sys.exit(1)` when missing findings exist or unused
findings exist with fail-on-warn set; otherwise optionally warn and return
normally (exit 0).  The same code runs whichever analyzer produced the
lists. -/
def decisionPolicy (missing unused : List String) (failOnWarn : Bool) :
    RunOutcome :=
  if !missing.isEmpty || (!unused.isEmpty && failOnWarn) then
    ⟨1, false⟩
  else if !unused.isEmpty && !failOnWarn then
    ⟨0, true⟩
  else
    ⟨0, false⟩

/-- The raw flag value:
`os.getenv("INPUT_FAIL_ON_WARN") or os.getenv("INPUT_FAIL-ON-WARN") or "false"`. -/
def failOnWarnRaw (underscoreVar hyphenVar : Option String) : String :=
  pyOrStr underscoreVar (pyOrStr hyphenVar "false")

/-- `fail_on_warn = fail_on_warn_raw.strip().lower() == "true"`. -/
def failOnWarnFlag (underscoreVar hyphenVar : Option String) : Bool :=
  decide (pyLowerS (pyStrip (failOnWarnRaw underscoreVar hyphenVar)) = "true")

/-! ## Specification-side definitions

These two definitions follow the words of the specification rather than the
code; the theorems below compare them with the embedded code. -/

/-- Spec side, for the runner's error propagation: the first exit code in
declaration order that is neither 0 nor 1, falling back to 2. -/
def specFirstAbnormalExit (codes : List Int) : Int :=
  (codes.find? fun c => !(c == 0 || c == 1)).getD 2

/-- Spec side, for the round-trip property: re-serialize the two normalized
lists as a fresh JSON document whose `missing`/`unused` keys hold the lists'
entries directly. -/
def reserializeLists (missing unused : List JVal) : JVal :=
  .jobj [("missing", .jarr missing), ("unused", .jarr unused)]

/-- Amended re-serialization: each normalized entry wrapped back into an
object under its `module` key. -/
def wrapModuleField (v : JVal) : JVal := .jobj [("module", v)]

/-- Re-serialize the two normalized lists with each entry wrapped as a
`module` object. -/
def reserializeWrapped (missing unused : List JVal) : JVal :=
  .jobj [("missing", .jarr (missing.map wrapModuleField)),
         ("unused", .jarr (unused.map wrapModuleField))]

/-- The name selected for a dict entry of the report (total companion of
`entryName`, used to state order preservation). -/
def selectName (item : JVal) : JVal :=
  match item with
  | .jobj kvs =>
      pyOrJ (pyDictGet kvs "module") fun _ =>
        pyOrJ (pyDictGet kvs "name") fun _ => .jstr (pyRepr (.jobj kvs))
  | v => v

/-! ## General lemmas -/

theorem mk_toList (s : String) : String.mk s.toList = s := by
  cases s
  rfl

theorem dropWhile_eq_self_of {α : Type} (p : α → Bool) (l : List α)
    (h : ∀ c ∈ l, p c = false) : l.dropWhile p = l := by
  cases l with
  | nil => rfl
  | cons c cs => simp [List.dropWhile_cons, h c (List.mem_cons_self c cs)]

theorem dropWhile_eq_nil_of {α : Type} (p : α → Bool) (l : List α)
    (h : ∀ c ∈ l, p c = true) : l.dropWhile p = [] := by
  induction l with
  | nil => rfl
  | cons c cs ih =>
    rw [List.dropWhile_cons, if_pos (h c (List.mem_cons_self c cs))]
    exact ih fun x hx => h x (List.mem_cons_of_mem c hx)

theorem takeWhile_eq_self_of {α : Type} (p : α → Bool) (l : List α)
    (h : ∀ c ∈ l, p c = true) : l.takeWhile p = l := by
  induction l with
  | nil => rfl
  | cons c cs ih =>
    rw [List.takeWhile_cons, if_pos (h c (List.mem_cons_self c cs))]
    rw [ih fun x hx => h x (List.mem_cons_of_mem c hx)]

theorem stripChars_eq_self (p : Char → Bool) (l : List Char)
    (h : ∀ c ∈ l, p c = false) : stripChars p l = l := by
  unfold stripChars
  rw [dropWhile_eq_self_of p l h,
    dropWhile_eq_self_of p l.reverse fun c hc => h c (List.mem_reverse.mp hc),
    List.reverse_reverse]

theorem stripChars_eq_nil (p : Char → Bool) (l : List Char)
    (h : ∀ c ∈ l, p c = true) : stripChars p l = [] := by
  unfold stripChars
  rw [dropWhile_eq_nil_of p l h]
  rfl

theorem insertSorted_perm (x : String) (l : List String) :
    List.Perm (insertSorted x l) (x :: l) := by
  induction l with
  | nil => simp [insertSorted]
  | cons y ys ih =>
    simp only [insertSorted]
    split
    · exact List.Perm.refl _
    · exact List.Perm.trans (List.Perm.cons y ih) (List.Perm.swap x y ys)

theorem insertionSort_perm (l : List String) :
    List.Perm (insertionSort l) l := by
  induction l with
  | nil => exact List.Perm.refl _
  | cons x xs ih =>
    exact List.Perm.trans (insertSorted_perm x (insertionSort xs))
      (List.Perm.cons x ih)

theorem sortedDedup_nodup (xs : List String) : (sortedDedup xs).Nodup :=
  (List.Perm.nodup_iff (insertionSort_perm xs.dedup)).mpr (List.nodup_dedup xs)

theorem splitlinesAux_no_boundary (l : List Char)
    (hb : ∀ c ∈ l, isLineBoundaryChar c = false) :
    ∀ acc : List Char, acc ≠ [] ∨ l ≠ [] →
      splitlinesAux l acc false = [acc.reverse ++ l] := by
  induction l with
  | nil =>
    intro acc hne
    rcases hne with h | h
    · rw [splitlinesAux, if_neg (by simpa [List.isEmpty_iff] using h)]
      simp
    · exact absurd rfl h
  | cons c rest ih =>
    intro acc _
    have hc := hb c (List.mem_cons_self c rest)
    rw [splitlinesAux]
    rw [if_neg (by simp), if_neg (by simp [hc])]
    rw [ih (fun x hx => hb x (List.mem_cons_of_mem c hx)) (c :: acc)
      (Or.inl (by simp))]
    simp

theorem pySplitlines_single (s : String)
    (hb : ∀ c ∈ s.toList, isLineBoundaryChar c = false)
    (hne : s.toList ≠ []) : pySplitlines s = [s.toList] := by
  unfold pySplitlines
  rw [splitlinesAux_no_boundary s.toList hb [] (Or.inr hne)]
  rfl

theorem except_bind_ok {ε α β : Type} (a : α) (f : α → Except ε β) :
    (Except.ok a >>= f : Except ε β) = f a := rfl

theorem except_bind_error {ε α β : Type} (e : ε) (f : α → Except ε β) :
    (Except.error e >>= f : Except ε β) = Except.error e := rfl

/-! ## Lemmas about the structured parser -/

theorem pyRepr_jobj_ne_empty (kvs : List (String × JVal)) :
    pyRepr (.jobj kvs) ≠ "" := by
  intro h
  have hl := congrArg String.length h
  rw [pyRepr, String.length_append, String.length_append] at hl
  rw [show ("\x7b" : String).length = 1 from rfl,
    show ("\x7d" : String).length = 1 from rfl,
    show ("" : String).length = 0 from rfl] at hl
  omega

theorem truthy_pyOrJ (o : Option JVal) (k : Unit → JVal)
    (hk : truthy (k ()) = true) : truthy (pyOrJ o k) = true := by
  cases o with
  | none => exact hk
  | some v =>
    show truthy (if truthy v = true then v else k ()) = true
    by_cases hv : truthy v = true
    · rw [if_pos hv]
      exact hv
    · rw [if_neg hv]
      exact hk

theorem entryName_ok_truthy (item v : JVal) (h : entryName item = .ok v) :
    truthy v = true := by
  cases item
  case jobj kvs =>
    rw [entryName] at h
    rw [← Except.ok.inj h]
    apply truthy_pyOrJ
    apply truthy_pyOrJ
    simpa [truthy] using pyRepr_jobj_ne_empty kvs
  all_goals exact absurd h (by simp [entryName])

theorem entryName_ok_select (item v : JVal) (h : entryName item = .ok v) :
    v = selectName item := by
  cases item
  case jobj kvs =>
    rw [entryName] at h
    rw [selectName]
    exact (Except.ok.inj h).symm
  all_goals exact absurd h (by simp [entryName])

theorem entryName_wrapModule (v : JVal) (hv : truthy v = true) :
    entryName (wrapModuleField v) = .ok v := by
  simp [wrapModuleField, entryName, pyOrJ, pyDictGet, List.lookup, hv]

theorem mapEntries_ok_truthy (es vs : List JVal) (h : mapEntries es = .ok vs) :
    ∀ v ∈ vs, truthy v = true := by
  induction es generalizing vs with
  | nil =>
    rw [mapEntries] at h
    obtain rfl := Except.ok.inj h
    intro v hv
    exact absurd hv (by simp)
  | cons x xs ih =>
    rw [mapEntries] at h
    cases hx : entryName x with
    | error e =>
      simp only [hx, except_bind_error] at h
      exact absurd h (by simp)
    | ok v0 =>
      simp only [hx, except_bind_ok] at h
      cases hxs : mapEntries xs with
      | error e =>
        simp only [hxs, except_bind_error] at h
        exact absurd h (by simp)
      | ok ws =>
        simp only [hxs, except_bind_ok] at h
        obtain rfl := Except.ok.inj h
        intro v hv
        rcases List.mem_cons.mp hv with rfl | hv2
        · exact entryName_ok_truthy x v hx
        · exact ih ws hxs v hv2

theorem mapEntries_ok_map (es vs : List JVal) (h : mapEntries es = .ok vs) :
    vs = es.map selectName := by
  induction es generalizing vs with
  | nil =>
    rw [mapEntries] at h
    simpa using (Except.ok.inj h).symm
  | cons x xs ih =>
    rw [mapEntries] at h
    cases hx : entryName x with
    | error e =>
      simp only [hx, except_bind_error] at h
      exact absurd h (by simp)
    | ok v0 =>
      simp only [hx, except_bind_ok] at h
      cases hxs : mapEntries xs with
      | error e =>
        simp only [hxs, except_bind_error] at h
        exact absurd h (by simp)
      | ok ws =>
        simp only [hxs, except_bind_ok] at h
        obtain rfl := Except.ok.inj h
        rw [List.map_cons, ← entryName_ok_select x v0 hx, ← ih ws hxs]

theorem mapEntries_wrapModule (vs : List JVal)
    (h : ∀ v ∈ vs, truthy v = true) :
    mapEntries (vs.map wrapModuleField) = .ok vs := by
  induction vs with
  | nil => rfl
  | cons v rest ih =>
    rw [List.map_cons, mapEntries]
    simp only [entryName_wrapModule v (h v (List.mem_cons_self v rest)),
      except_bind_ok,
      ih fun x hx => h x (List.mem_cons_of_mem v hx)]

theorem parseDeptryJson_ok_decomp (data : JVal) (m u : List JVal)
    (h : parseDeptryJson data = .ok (m, u)) :
    ∃ kvs mes ues, data = .jobj kvs ∧
      pyIterate (pyGetDefault kvs "missing" (.jarr [])) = .ok mes ∧
      pyIterate (pyGetDefault kvs "unused" (.jarr [])) = .ok ues ∧
      mapEntries mes = .ok m ∧ mapEntries ues = .ok u := by
  cases data
  case jobj kvs =>
    rw [parseDeptryJson] at h
    cases h1 : pyIterate (pyGetDefault kvs "missing" (.jarr [])) with
    | error e =>
      simp only [h1, except_bind_error] at h
      exact absurd h (by simp)
    | ok mes =>
      simp only [h1, except_bind_ok] at h
      cases h2 : mapEntries mes with
      | error e =>
        simp only [h2, except_bind_error] at h
        exact absurd h (by simp)
      | ok mm =>
        simp only [h2, except_bind_ok] at h
        cases h3 : pyIterate (pyGetDefault kvs "unused" (.jarr [])) with
        | error e =>
          simp only [h3, except_bind_error] at h
          exact absurd h (by simp)
        | ok ues =>
          simp only [h3, except_bind_ok] at h
          cases h4 : mapEntries ues with
          | error e =>
            simp only [h4, except_bind_error] at h
            exact absurd h (by simp)
          | ok uu =>
            simp only [h4, except_bind_ok] at h
            obtain ⟨rfl, rfl⟩ := Prod.mk.inj (Except.ok.inj h)
            exact ⟨kvs, mes, ues, rfl, h1, h3, h2, h4⟩
  all_goals exact absurd h (by simp [parseDeptryJson])

/-! ## Claim C1: decision policy -/

/-- Claim C1: the run exits 1 exactly when the missing list is non-empty or
the unused list is non-empty with fail-on-warn set; every other run exits 0;
with unused findings and the flag off it warns and exits 0; with both lists
empty it reports full success (exit 0, no warning).  `decisionPolicy` is the
single function `main` applies to the lists, whichever analyzer mode
produced them. -/
theorem C1_decision_policy (missing unused : List String) (failOnWarn : Bool) :
    ((decisionPolicy missing unused failOnWarn).exitCode = 1 ↔
      (missing ≠ [] ∨ (unused ≠ [] ∧ failOnWarn = true))) ∧
    ((decisionPolicy missing unused failOnWarn).exitCode = 1 ∨
      (decisionPolicy missing unused failOnWarn).exitCode = 0) ∧
    (missing = [] → unused ≠ [] → failOnWarn = false →
      decisionPolicy missing unused failOnWarn = ⟨0, true⟩) ∧
    (missing = [] → unused = [] →
      decisionPolicy missing unused failOnWarn = ⟨0, false⟩) := by
  cases missing <;> cases unused <;> cases failOnWarn <;>
    simp [decisionPolicy]

/-- Witness for C1: unused findings with fail-on-warn off give a warned,
successful outcome. -/
theorem C1_decision_policy_witness :
    decisionPolicy [] ["boto3"] false = ⟨0, true⟩ :=
  (C1_decision_policy [] ["boto3"] false).2.2.1 rfl (by simp) rfl

/-! ## Claim C2: requirements-runner error propagation -/

/-- Claim C2 counterexample: missing-check exits 1 (a normal findings code),
extra-check exits 3 (abnormal).  The fatal branch triggers, but the process
exits with `returncode or returncode or 2 = 1`, not with 3, the first
non-(0|1) code in declaration order demanded by the claim. -/
theorem C2_exit_code_cex :
    run_pip_check_reqs ⟨1, "", ""⟩ ⟨3, "", ""⟩ = .fatal 1 [] ∧
    specFirstAbnormalExit [1, 3] = 3 ∧ (1 : Int) ≠ 3 := by
  refine ⟨?_, rfl, by decide⟩
  rfl

/-- Claim C2 amended: when either sub-invocation exits with a code other
than 0 or 1, the runner terminates with the first non-zero exit code in
declaration order (missing-check first, then extra-check), falling back to
2, and reports the retained stderr diagnostics of both tools. -/
theorem C2_exit_code_amended (missingResult extraResult : CompletedProcess)
    (h : ¬(missingResult.returncode = 0 ∨ missingResult.returncode = 1) ∨
         ¬(extraResult.returncode = 0 ∨ extraResult.returncode = 1)) :
    run_pip_check_reqs missingResult extraResult =
      .fatal
        (([missingResult.returncode, extraResult.returncode].find?
            fun c => c != 0).getD 2)
        (pipDiagnostics missingResult extraResult) := by
  unfold run_pip_check_reqs
  rw [if_pos h]
  congr 1
  unfold pyOrInt
  by_cases hm : missingResult.returncode = 0
  · rw [if_neg (by simp [hm])]
    rw [List.find?_cons_of_neg _ (by simp [hm])]
    by_cases he : extraResult.returncode = 0
    · rw [if_neg (by simp [he]), List.find?_cons_of_neg _ (by simp [he])]
      rfl
    · rw [if_pos he, List.find?_cons_of_pos _ (by simp [he])]
      rfl
  · rw [if_pos hm, List.find?_cons_of_pos _ (by simp [hm])]
    rfl

/-- Witness for C2 amended: a clean missing-check and a crashed extra-check
propagate the extra-check's code 3. -/
theorem C2_exit_code_amended_witness :
    run_pip_check_reqs ⟨0, "", ""⟩ ⟨3, "", ""⟩ = .fatal 3 [] := by
  have h := C2_exit_code_amended ⟨0, "", ""⟩ ⟨3, "", ""⟩ (by norm_num)
  simpa using h

/-! ## Claim C3 counterexample (round-trip) -/

/-- Claim C3 counterexample: parsing a one-entry report succeeds with
`(["requests"], [])`, but parsing the re-serialization of those normalized
name lists raises `AttributeError` (a string entry has no `get` method), so
the round trip fails for every non-empty list. -/
theorem C3_roundtrip_cex :
    parseDeptryJson
        (.jobj [("missing", .jarr [.jobj [("module", .jstr "requests")]]),
                ("unused", .jarr [])]) =
      .ok ([.jstr "requests"], []) ∧
    parseDeptryJson (reserializeLists [.jstr "requests"] []) =
      .error .attributeError ∧
    (Except.error .attributeError :
        Except PyExc (List JVal × List JVal)) ≠ .ok ([.jstr "requests"], []) :=
  ⟨rfl, rfl, fun h => Except.noConfusion h⟩

/-! ## Claim C6 counterexample (duplicates in deptry mode) -/

/-- Claim C6 counterexample: a deptry report with a duplicated module entry
yields a missing list containing the same name twice; the structured parser
never deduplicates. -/
theorem C6_nodup_cex :
    parseDeptryJson
        (.jobj [("missing",
                 .jarr [.jobj [("module", .jstr "requests")],
                        .jobj [("module", .jstr "requests")]]),
                ("unused", .jarr [])]) =
      .ok ([.jstr "requests", .jstr "requests"], []) ∧
    ¬ ([JVal.jstr "requests", JVal.jstr "requests"].Nodup) :=
  ⟨rfl, fun h => (List.nodup_cons.mp h).1 (List.mem_singleton.mpr rfl)⟩

/-! ## Claim C7: empty structured output -/

/-- Claim C7: stdout that is empty or whitespace-only makes the structured
parser return two empty lists, with no error and no JSON decoding at all. -/
theorem C7_empty_stdout (jsonLoads : String → Option JVal) (stdout : String)
    (h : ∀ c ∈ stdout.toList, isPySpace c = true) :
    parse_deptry_report jsonLoads stdout = .parsed [] [] := by
  have hs : pyStrip stdout = "" := by
    unfold pyStrip
    rw [stripChars_eq_nil isPySpace stdout.toList h]
  unfold parse_deptry_report
  rw [if_pos hs]

/-- Witness for C7 at a whitespace-only stdout. -/
theorem C7_empty_stdout_witness :
    parse_deptry_report (fun _ => none) " \t\n" = .parsed [] [] :=
  C7_empty_stdout (fun _ => none) " \t\n" (by decide)

/-! ## Claim C8: malformed structured output is fatal -/

/-- Claim C8: non-whitespace stdout on which JSON decoding fails is fatal:
the parser reports the raw offending text and exits 2, and no
`(missing, unused)` pair is produced. -/
theorem C8_malformed_fatal (jsonLoads : String → Option JVal) (stdout : String)
    (hne : pyStrip stdout ≠ "") (hbad : jsonLoads stdout = none) :
    parse_deptry_report jsonLoads stdout = .fatal 2 stdout := by
  unfold parse_deptry_report
  rw [if_neg hne, hbad]

/-- Witness for C8 at a non-JSON stdout. -/
theorem C8_malformed_fatal_witness :
    parse_deptry_report (fun _ => none) "not json" = .fatal 2 "not json" :=
  C8_malformed_fatal (fun _ => none) "not json" (by decide) rfl

/-! ## Claim C10: fail-on-warn flag parsing -/

/-- Claim C10: the flag is true exactly when the selected raw value,
stripped of surrounding whitespace and lowercased, is the string "true"; the
underscore-named variable takes precedence when set and non-empty; with both
variables unset the default is "false"; values such as "1" and "yes" yield
false while " TRUE " yields true. -/
theorem C10_fail_on_warn (underscoreVar hyphenVar : Option String) :
    (failOnWarnFlag underscoreVar hyphenVar = true ↔
      pyLowerS (pyStrip (failOnWarnRaw underscoreVar hyphenVar)) = "true") ∧
    (∀ s, underscoreVar = some s → s ≠ "" →
      failOnWarnRaw underscoreVar hyphenVar = s) ∧
    (underscoreVar = none → hyphenVar = none →
      failOnWarnFlag underscoreVar hyphenVar = false) ∧
    (failOnWarnFlag (some "1") none = false ∧
     failOnWarnFlag (some "yes") none = false ∧
     failOnWarnFlag (some " TRUE ") none = true) := by
  refine ⟨by simp [failOnWarnFlag], ?_, ?_, by decide⟩
  · rintro s rfl hs
    simp [failOnWarnRaw, pyOrStr, hs]
  · rintro rfl rfl
    decide

/-- Witness for C10: a non-empty underscore-named value wins over the
hyphen-named one. -/
theorem C10_fail_on_warn_witness :
    failOnWarnRaw (some "TRUE") (some "false") = "TRUE" :=
  (C10_fail_on_warn (some "TRUE") (some "false")).2.1 "TRUE" rfl (by decide)

/-! ## Claim C3 amended: round trip with module-wrapped entries -/

/-- Claim C3 amended: for every document the structured parser accepts with
lists `(m, u)`, re-serializing the two normalized lists with each entry
wrapped back into an object under its `module` key and parsing again yields
exactly `(m, u)` (order included).  Re-serializing the names as bare strings
instead makes the second parse raise `AttributeError`, so the round trip as
originally claimed holds only when both lists are empty. -/
theorem C3_roundtrip_amended (doc : JVal) (m u : List JVal)
    (h : parseDeptryJson doc = .ok (m, u)) :
    parseDeptryJson (reserializeWrapped m u) = .ok (m, u) := by
  obtain ⟨kvs, mes, ues, -, -, -, hm, hu⟩ := parseDeptryJson_ok_decomp doc m u h
  have hm2 := mapEntries_wrapModule m (mapEntries_ok_truthy mes m hm)
  have hu2 := mapEntries_wrapModule u (mapEntries_ok_truthy ues u hu)
  show parseDeptryJson
      (.jobj [("missing", .jarr (m.map wrapModuleField)),
              ("unused", .jarr (u.map wrapModuleField))]) = .ok (m, u)
  rw [parseDeptryJson]
  rw [show pyGetDefault
        [("missing", JVal.jarr (m.map wrapModuleField)),
         ("unused", JVal.jarr (u.map wrapModuleField))] "missing" (.jarr []) =
      .jarr (m.map wrapModuleField) from rfl]
  rw [show pyGetDefault
        [("missing", JVal.jarr (m.map wrapModuleField)),
         ("unused", JVal.jarr (u.map wrapModuleField))] "unused" (.jarr []) =
      .jarr (u.map wrapModuleField) from rfl]
  simp only [pyIterate, except_bind_ok, hm2, hu2]

/-- Witness for C3 amended at a two-entry document. -/
theorem C3_roundtrip_amended_witness :
    parseDeptryJson
        (reserializeWrapped [JVal.jstr "requests"] [JVal.jstr "boto3"]) =
      .ok ([JVal.jstr "requests"], [JVal.jstr "boto3"]) :=
  C3_roundtrip_amended
    (.jobj [("missing", .jarr [.jobj [("module", .jstr "requests")]]),
            ("unused", .jarr [.jobj [("module", .jstr "boto3")]])])
    [JVal.jstr "requests"] [JVal.jstr "boto3"] rfl

/-! ## Claim C5: structured parser entry naming -/

/-- Claim C5: whenever the structured parser succeeds, the document is an
object, and each of its `missing`/`unused` entries yields exactly one name,
in source order: the result lists are the entry-wise image of `selectName`,
which tries the entry's `module` field, then its `name` field (a field whose
value is falsy is passed over, as Python `or` does), then falls back to the
entry's string form. -/
theorem C5_entry_naming (data : JVal) (m u : List JVal)
    (h : parseDeptryJson data = .ok (m, u)) :
    ∃ kvs mes ues, data = .jobj kvs ∧
      pyIterate (pyGetDefault kvs "missing" (.jarr [])) = .ok mes ∧
      pyIterate (pyGetDefault kvs "unused" (.jarr [])) = .ok ues ∧
      m = mes.map selectName ∧ u = ues.map selectName := by
  obtain ⟨kvs, mes, ues, hd, h1, h2, hm, hu⟩ :=
    parseDeptryJson_ok_decomp data m u h
  exact ⟨kvs, mes, ues, hd, h1, h2, mapEntries_ok_map mes m hm,
    mapEntries_ok_map ues u hu⟩

/-- Witness for C5 at a document exercising the `module` and `name`
fields. -/
theorem C5_entry_naming_witness :
    ∃ kvs mes ues,
      (JVal.jobj
        [("missing", JVal.jarr [JVal.jobj [("module", JVal.jstr "requests")]]),
         ("unused", JVal.jarr [JVal.jobj [("name", JVal.jstr "boto3")]])]) =
        .jobj kvs ∧
      pyIterate (pyGetDefault kvs "missing" (.jarr [])) = .ok mes ∧
      pyIterate (pyGetDefault kvs "unused" (.jarr [])) = .ok ues ∧
      [JVal.jstr "requests"] = mes.map selectName ∧
      [JVal.jstr "boto3"] = ues.map selectName :=
  C5_entry_naming _ [JVal.jstr "requests"] [JVal.jstr "boto3"] rfl

/-! ## Claim C6 amended: deduplication per mode -/

/-- Claim C6 amended: the no-duplicates invariant holds in pip-check-reqs
mode, whose parser sorts and deduplicates, so both lists the runner returns
to the decision policy and rendering are duplicate-free; in deptry mode the
structured parser preserves entry order and multiplicity, so a report with
repeated entries hands duplicated names onward. -/
theorem C6_pip_mode_nodup (missingResult extraResult : CompletedProcess)
    (m u : List String) (d : List (String × String))
    (h : run_pip_check_reqs missingResult extraResult = .completed m u d) :
    m.Nodup ∧ u.Nodup := by
  unfold run_pip_check_reqs at h
  by_cases hc : ¬(missingResult.returncode = 0 ∨ missingResult.returncode = 1) ∨
      ¬(extraResult.returncode = 0 ∨ extraResult.returncode = 1)
  · rw [if_pos hc] at h
    exact absurd h (by simp)
  · rw [if_neg hc] at h
    have hm := congrArg
      (fun o => match o with
        | PipCheckOutcome.completed a _ _ => a
        | PipCheckOutcome.fatal _ _ => []) h
    have hu := congrArg
      (fun o => match o with
        | PipCheckOutcome.completed _ b _ => b
        | PipCheckOutcome.fatal _ _ => []) h
    simp only at hm hu
    rw [← hm, ← hu]
    unfold parse_pip_check_output
    exact ⟨sortedDedup_nodup _, sortedDedup_nodup _⟩

/-- Witness for C6 amended: a pip-check-reqs run with findings returns
duplicate-free lists. -/
theorem C6_pip_mode_nodup_witness :
    run_pip_check_reqs ⟨1, "Missing requirements:\n- requests", ""⟩
        ⟨0, "", ""⟩ = .completed ["requests"] [] [] ∧
    (["requests"] : List String).Nodup ∧ ([] : List String).Nodup := by
  have h : run_pip_check_reqs ⟨1, "Missing requirements:\n- requests", ""⟩
      ⟨0, "", ""⟩ = .completed ["requests"] [] [] := rfl
  have h2 := C6_pip_mode_nodup _ _ _ _ _ h
  exact ⟨h, h2.1, h2.2⟩

/-! ## Claim C9: manifest selection -/

/-- Claim C9: the runner checks `requirements.txt`, `requirements-dev.txt`,
`requirements.in` in that fixed order inside the target directory; the first
existing one is passed as `--requirements-file` to both sub-invocations, and
when none exists both commands carry no manifest argument. -/
theorem C9_manifest_selection (fsExists : String → Bool) (path : String) :
    (fsExists (path ++ "/requirements.txt") = true →
      pipCheckCommands fsExists path =
        (["pip-missing-reqs", path, "--requirements-file",
            path ++ "/requirements.txt"],
         ["pip-extra-reqs", path, "--requirements-file",
            path ++ "/requirements.txt"])) ∧
    (fsExists (path ++ "/requirements.txt") = false →
     fsExists (path ++ "/requirements-dev.txt") = true →
      pipCheckCommands fsExists path =
        (["pip-missing-reqs", path, "--requirements-file",
            path ++ "/requirements-dev.txt"],
         ["pip-extra-reqs", path, "--requirements-file",
            path ++ "/requirements-dev.txt"])) ∧
    (fsExists (path ++ "/requirements.txt") = false →
     fsExists (path ++ "/requirements-dev.txt") = false →
     fsExists (path ++ "/requirements.in") = true →
      pipCheckCommands fsExists path =
        (["pip-missing-reqs", path, "--requirements-file",
            path ++ "/requirements.in"],
         ["pip-extra-reqs", path, "--requirements-file",
            path ++ "/requirements.in"])) ∧
    (fsExists (path ++ "/requirements.txt") = false →
     fsExists (path ++ "/requirements-dev.txt") = false →
     fsExists (path ++ "/requirements.in") = false →
      pipCheckCommands fsExists path =
        (["pip-missing-reqs", path], ["pip-extra-reqs", path])) := by
  refine ⟨?_, ?_, ?_, ?_⟩
  · intro h1
    unfold pipCheckCommands select_requirements_file requirementsCandidates
    rw [List.find?_cons_of_pos _ h1]
    rfl
  · intro h1 h2
    unfold pipCheckCommands select_requirements_file requirementsCandidates
    rw [List.find?_cons_of_neg _ (by simp [h1]),
      List.find?_cons_of_pos _ h2]
    rfl
  · intro h1 h2 h3
    unfold pipCheckCommands select_requirements_file requirementsCandidates
    rw [List.find?_cons_of_neg _ (by simp [h1]),
      List.find?_cons_of_neg _ (by simp [h2]),
      List.find?_cons_of_pos _ h3]
    rfl
  · intro h1 h2 h3
    unfold pipCheckCommands select_requirements_file requirementsCandidates
    rw [List.find?_cons_of_neg _ (by simp [h1]),
      List.find?_cons_of_neg _ (by simp [h2]),
      List.find?_cons_of_neg _ (by simp [h3])]
    rfl

/-- Witness for C9: only the second candidate exists, so both commands carry
it. -/
theorem C9_manifest_selection_witness :
    pipCheckCommands (fun s => s == "p/requirements-dev.txt") "p" =
      (["pip-missing-reqs", "p", "--requirements-file",
          "p/requirements-dev.txt"],
       ["pip-extra-reqs", "p", "--requirements-file",
          "p/requirements-dev.txt"]) :=
  (C9_manifest_selection (fun s => s == "p/requirements-dev.txt") "p").2.1
    (by decide) (by decide)

/-! ## Lemmas about the package-name character set -/

theorem allowed_char_ne (c d : Char) (h : isAllowedChar c = true)
    (hd : isAllowedChar d = false) : ¬ c = d := by
  intro heq
  rw [heq, hd] at h
  exact Bool.false_ne_true h

theorem allowed_not_pyspace (c : Char) (h : isAllowedChar c = true) :
    isPySpace c = false := by
  cases hsp : isPySpace c
  · rfl
  · exfalso
    rw [isPySpace] at hsp
    simp only [Bool.or_eq_true, decide_eq_true_eq, or_assoc] at hsp
    rcases hsp with rfl | rfl | rfl | rfl | rfl | rfl <;>
      exact absurd h (by decide)

theorem allowed_not_boundary (c : Char) (h : isAllowedChar c = true) :
    isLineBoundaryChar c = false := by
  cases hsp : isLineBoundaryChar c
  · rfl
  · exfalso
    rw [isLineBoundaryChar] at hsp
    simp only [Bool.or_eq_true, decide_eq_true_eq, or_assoc] at hsp
    rcases hsp with rfl | rfl | rfl | rfl | rfl | rfl | rfl | rfl | rfl | rfl <;>
      exact absurd h (by decide)

theorem startsWithStr_false_of_bad (l : List Char) (p : String) (c : Char)
    (hc : c ∈ p.toList) (hl : ∀ x ∈ l, isAllowedChar x = true)
    (hcbad : isAllowedChar c = false) : startsWithStr l p = false := by
  cases hx : startsWithStr l p
  · rfl
  · exfalso
    rw [startsWithStr] at hx
    have hmem : c ∈ l := (List.isPrefixOf_iff_prefix.mp hx).subset hc
    rw [hl c hmem] at hcbad
    exact absurd hcbad (by simp)

/-! ## Claim C4: line-oriented parser token extraction -/

/-- Claim C4 counterexample: the line consisting solely of the bare token
`warning` — every character alphanumeric — contributes nothing, because the
token itself begins with the recognized noise prefix "warning"; the claim
demands the output contain exactly that token. -/
theorem C4_bare_token_cex :
    ("warning".toList.all isAllowedChar = true) ∧
    parse_pip_check_output "warning" = [] := ⟨rfl, rfl⟩

/-- Claim C4 amended: a line consisting solely of a single bare token of
allowed characters (alphanumeric, hyphen, underscore, dot) yields exactly
that token, provided the token's lowercased form does not itself begin with
one of the recognized header/noise prefixes and the token does not begin
with a comment/separator marker; and any line whose whitespace-stripped,
lowercased form begins with a recognized header/noise prefix contributes
nothing. -/
theorem C4_token_lines_amended :
    (∀ t : String, t.toList ≠ [] →
      (∀ c ∈ t.toList, isAllowedChar c = true) →
      (∀ p ∈ headerSkipsA ++ headerSkipsB,
        startsWithStr (pyLower t.toList) p = false) →
      (∀ p ∈ markerSkips, startsWithStr t.toList p = false) →
      parse_pip_check_output t = [t]) ∧
    (∀ line : String,
      ((headerSkipsA ++ headerSkipsB).any fun p =>
        startsWithStr (pyLower (stripChars isPySpace line.toList)) p) = true →
      processLine line.toList = none) := by
  constructor
  · intro t hne hall hA hM
    have hsp : ∀ c ∈ t.toList, isPySpace c = false :=
      fun c hc => allowed_not_pyspace c (hall c hc)
    have hb : ∀ c ∈ t.toList, isLineBoundaryChar c = false :=
      fun c hc => allowed_not_boundary c (hall c hc)
    have hclean : stripChars isPySpace t.toList = t.toList :=
      stripChars_eq_self _ _ hsp
    have c1 : (t.toList).isEmpty = false := by
      cases ht : t.toList with
      | nil => exact absurd ht hne
      | cons a as => rfl
    have c2 : (headerSkipsA.any fun p => startsWithStr (pyLower t.toList) p)
        = false := by
      cases hx : headerSkipsA.any fun p => startsWithStr (pyLower t.toList) p
      · rfl
      · obtain ⟨p, hp, hps⟩ := List.any_eq_true.mp hx
        rw [hA p (List.mem_append_left _ hp)] at hps
        exact absurd hps (by simp)
    have c3 : (headerSkipsB.any fun p => startsWithStr (pyLower t.toList) p)
        = false := by
      cases hx : headerSkipsB.any fun p => startsWithStr (pyLower t.toList) p
      · rfl
      · obtain ⟨p, hp, hps⟩ := List.any_eq_true.mp hx
        rw [hA p (List.mem_append_right _ hp)] at hps
        exact absurd hps (by simp)
    have c4 : (markerSkips.any fun p => startsWithStr t.toList p) = false := by
      cases hx : markerSkips.any fun p => startsWithStr t.toList p
      · rfl
      · obtain ⟨p, hp, hps⟩ := List.any_eq_true.mp hx
        rw [hM p hp] at hps
        exact absurd hps (by simp)
    have hcol : (t.toList).contains ':' = false := by
      cases hx : (t.toList).contains ':'
      · rfl
      · have hmem : ':' ∈ t.toList := List.elem_iff.mp hx
        exact absurd (hall ':' hmem) (by decide)
    have c6 : startsWithStr t.toList "- " = false :=
      startsWithStr_false_of_bad t.toList "- " ' ' (by decide) hall (by decide)
    have c7 : startsWithStr t.toList "* " = false :=
      startsWithStr_false_of_bad t.toList "* " ' ' (by decide) hall (by decide)
    have hdrop : t.toList.dropWhile isPySpace = t.toList :=
      dropWhile_eq_self_of _ _ hsp
    have htake : (t.toList.takeWhile fun c => !isPySpace c) = t.toList :=
      takeWhile_eq_self_of _ _ fun c hc => by rw [hsp c hc]; rfl
    have hcomma : stripChars (fun c => decide (c = ',')) t.toList = t.toList :=
      stripChars_eq_self _ _ fun c hc =>
        decide_eq_false (allowed_char_ne c ',' (hall c hc) (by decide))
    have hallb : (t.toList).all isAllowedChar = true := List.all_eq_true.mpr hall
    have hproc : processLine t.toList = some t.toList := by
      simp only [processLine, hclean, c1, c2, c3, c4, hcol, c6, c7, hdrop,
        htake, hcomma, hallb, Bool.and_false, Bool.or_self, Bool.false_eq_true,
        if_false, if_true]
    rw [parse_pip_check_output, pySplitlines_single t hb hne]
    simp only [List.filterMap_cons, hproc, List.filterMap_nil, List.map_cons,
      List.map_nil, mk_toList]
    rw [sortedDedup, List.dedup_cons_of_not_mem (List.not_mem_nil t),
      List.dedup_nil]
    simp [insertionSort, insertSorted]
  · intro line hmatch
    rw [List.any_append, Bool.or_eq_true] at hmatch
    simp only [processLine]
    by_cases hempty : (stripChars isPySpace line.toList).isEmpty = true
    · rw [if_pos hempty]
    · rw [if_neg hempty]
      rcases hmatch with hA2 | hB2
      · rw [if_pos hA2]
      · cases hA3 : headerSkipsA.any fun p =>
            startsWithStr (pyLower (stripChars isPySpace line.toList)) p
        · rw [if_neg (by simp), if_pos hB2]
        · rw [if_pos rfl]

/-- Witness for C4 amended: the bare token line `requests` is extracted, and
the header line `Missing requirements:` contributes nothing. -/
theorem C4_token_lines_amended_witness :
    parse_pip_check_output "requests" = ["requests"] ∧
    processLine "Missing requirements:".toList = none := by
  constructor
  · exact C4_token_lines_amended.1 "requests" (by decide) (by decide)
      (by decide) (by decide)
  · exact C4_token_lines_amended.2 "Missing requirements:" (by decide)

end DepCheck
